import Mathlib

/-
Shallow embedding of the Vision Transformer encoder implemented in
src/2025/Module 1: Intro & Pretraining/transformer.py.

Tensors are modelled as records of explicit dimensions together with total
content functions over natural-number indices; real numbers model the float
entries.  Entries at out-of-range indices are unconstrained junk and every
statement about tensor contents is made at in-range indices only.  Operations
that can raise a PyTorch runtime error relevant to the claims under study
(the view inside patchify, the broadcast add inside PositionalEncoding.forward,
and the construction-time failures) are embedded with Except / Option; the
remaining operations are pure index arithmetic and are embedded as total
functions, faithful on the shapes at which the program actually runs them.
-/

noncomputable section

structure Tensor2 where
  d1 : ℕ
  d2 : ℕ
  data : ℕ → ℕ → ℝ

structure Tensor3 where
  d1 : ℕ
  d2 : ℕ
  d3 : ℕ
  data : ℕ → ℕ → ℕ → ℝ

structure Tensor4 where
  d1 : ℕ
  d2 : ℕ
  d3 : ℕ
  d4 : ℕ
  data : ℕ → ℕ → ℕ → ℕ → ℝ

/-- nn.Linear with weight W of shape [outF, inF] and bias b, applied to the
last axis of a 3-D tensor: y = x W^T + b. -/
def linear3 (W : ℕ → ℕ → ℝ) (b : ℕ → ℝ) (outF inF : ℕ) (x : Tensor3) : Tensor3 :=
  ⟨x.d1, x.d2, outF, fun i l o => (∑ j ∈ Finset.range inF, x.data i l j * W o j) + b o⟩

/-- nn.Linear applied to the last axis of a 2-D tensor. -/
def linear2 (W : ℕ → ℕ → ℝ) (b : ℕ → ℝ) (outF inF : ℕ) (x : Tensor2) : Tensor2 :=
  ⟨x.d1, outF, fun i o => (∑ j ∈ Finset.range inF, x.data i j * W o j) + b o⟩

/-- Elementwise addition of two 3-D tensors of identical shape (the only way
the source ever adds tensors outside the positional-encoding broadcast). -/
def addT (x y : Tensor3) : Tensor3 :=
  ⟨x.d1, x.d2, x.d3, fun a b c => x.data a b c + y.data a b c⟩

/-- Default eps of nn.LayerNorm. -/
def layerNormEps : ℝ := 1 / 100000

/-- nn.LayerNorm over the last axis of size D: per-position mean and biased
variance across the feature dimension, then scale g and shift s. -/
def layerNorm (g s : ℕ → ℝ) (D : ℕ) (x : Tensor3) : Tensor3 :=
  ⟨x.d1, x.d2, x.d3, fun i l d =>
    let mu := (∑ j ∈ Finset.range D, x.data i l j) / D
    let v := (∑ j ∈ Finset.range D, (x.data i l j - mu) ^ 2) / D
    g d * ((x.data i l d - mu) / Real.sqrt (v + layerNormEps)) + s d⟩

/-- ReLU applied elementwise. -/
def reluT (x : Tensor3) : Tensor3 :=
  ⟨x.d1, x.d2, x.d3, fun a b c => max (x.data a b c) 0⟩

/-- Mean over axis 1 of a [B, L, D] tensor, the global average pooling step. -/
def meanDim1 (x : Tensor3) : Tensor2 :=
  ⟨x.d1, x.d3, fun b d => (∑ l ∈ Finset.range x.d2, x.data b l d) / x.d2⟩

/-- Entry i of div_term in PositionalEncoding.__init__:
exp(2 i * (-log 10000 / d_model)), from arange(0, d_model, 2). -/
def divTerm (dModel i : ℕ) : ℝ :=
  Real.exp ((2 * i : ℕ) * (-(Real.log 10000) / dModel))

/-- The positional table pe written by PositionalEncoding.__init__:
even columns 2 i hold sin(pos * div_term i), odd columns 2 i + 1 hold
cos(pos * div_term i).  Total in both arguments; the buffer itself covers
pos < max_len and column < d_model. -/
def peFun (dModel : ℕ) (pos j : ℕ) : ℝ :=
  if j % 2 = 0 then Real.sin (pos * divTerm dModel (j / 2))
  else Real.cos (pos * divTerm dModel (j / 2))

/-- The result of x + pe[:, :L, :] when the slice covers all L positions. -/
def addPE (pe : ℕ → ℕ → ℝ) (x : Tensor3) : Tensor3 :=
  ⟨x.d1, x.d2, x.d3, fun b l d => x.data b l d + pe l d⟩

/-- The result of the broadcast when the sliced table has a single row:
that row is added to every position. -/
def broadcastRow0 (pe : ℕ → ℕ → ℝ) (x : Tensor3) : Tensor3 :=
  ⟨x.d1, x.d2, x.d3, fun b l d => x.data b l d + pe 0 d⟩

def broadcastErrMsg : String :=
  "The size of tensor a must match the size of tensor b at dimension 1"

/-- PositionalEncoding.forward: x + pe[:, :x.size(1), :].  The slice keeps
min(L, max_len) rows; the elementwise add then broadcasts exactly when that
row count equals L or equals 1, and raises a size-mismatch error otherwise. -/
def PositionalEncoding.forward (maxLen : ℕ) (pe : ℕ → ℕ → ℝ) (x : Tensor3) :
    Except String Tensor3 :=
  let s := min x.d2 maxLen
  if s = x.d2 then Except.ok (addPE pe x)
  else if s = 1 then Except.ok (broadcastRow0 pe x)
  else Except.error broadcastErrMsg

structure MHAParams where
  qW : ℕ → ℕ → ℝ
  qB : ℕ → ℝ
  kW : ℕ → ℕ → ℝ
  kB : ℕ → ℝ
  vW : ℕ → ℕ → ℝ
  vB : ℕ → ℝ
  oW : ℕ → ℕ → ℝ
  oB : ℕ → ℝ

/-- view(batch, -1, H, d_k) followed by transpose(1, 2) on a [B, L, D]
tensor: the row-major data of each batch element is regrouped into
[m, H, d_k] with m = L*D/(H*d_k), then the head axis is moved forward. -/
def splitHeads (H dk : ℕ) (x : Tensor3) : Tensor4 :=
  ⟨x.d1, H, x.d2 * x.d3 / (H * dk), dk, fun b h l k =>
    let f := l * (H * dk) + h * dk + k
    x.data b (f / x.d3) (f % x.d3)⟩

/-- transpose(1, 2) followed by contiguous().view(batch, -1, H*d_k) on a
[B, H, L, d_k] tensor: the inverse regrouping of splitHeads. -/
def mergeHeads (H dk : ℕ) (t : Tensor4) : Tensor3 :=
  ⟨t.d1, t.d2 * t.d3 * t.d4 / (H * dk), H * dk, fun b l d =>
    let f := l * (H * dk) + d
    t.data b ((f % (t.d2 * t.d4)) / t.d4) (f / (t.d2 * t.d4)) ((f % (t.d2 * t.d4)) % t.d4)⟩

/-- matmul(Q, K.transpose(-2, -1)) / sqrt(d_k), shape [B, H, L, L]. -/
def attnScores (dk : ℕ) (Q K : Tensor4) : Tensor4 :=
  ⟨Q.d1, Q.d2, Q.d3, K.d3, fun b h i j =>
    (∑ k ∈ Finset.range Q.d4, Q.data b h i k * K.data b h j k) / Real.sqrt dk⟩

/-- nn.Softmax(dim=-1): exponentiate and normalise each row of the last axis. -/
def softmaxLast (t : Tensor4) : Tensor4 :=
  ⟨t.d1, t.d2, t.d3, t.d4, fun b h i j =>
    Real.exp (t.data b h i j) / ∑ u ∈ Finset.range t.d4, Real.exp (t.data b h i u)⟩

/-- MultiHeadAttention.scaled_dot_product_attention: softmax of the scaled
scores, then the weighted sum over V. -/
def scaledDotProductAttention (dk : ℕ) (Q K V : Tensor4) : Tensor4 :=
  let w := softmaxLast (attnScores dk Q K)
  ⟨Q.d1, Q.d2, Q.d3, V.d4, fun b h i k =>
    ∑ j ∈ Finset.range K.d3, w.data b h i j * V.data b h j k⟩

/-- MultiHeadAttention.forward with d_model = D and num_heads = H:
project Q, K, V, split into heads, attend, concatenate heads back and apply
the output projection.  d_k = D / H as in the constructor. -/
def MultiHeadAttention.forward (D H : ℕ) (p : MHAParams) (Q K V : Tensor3) : Tensor3 :=
  let dk := D / H
  let Qh := splitHeads H dk (linear3 p.qW p.qB D D Q)
  let Kh := splitHeads H dk (linear3 p.kW p.kB D D K)
  let Vh := splitHeads H dk (linear3 p.vW p.vB D D V)
  linear3 p.oW p.oB D D (mergeHeads H dk (scaledDotProductAttention dk Qh Kh Vh))

structure FFNParams where
  f1W : ℕ → ℕ → ℝ
  f1B : ℕ → ℝ
  f2W : ℕ → ℕ → ℝ
  f2B : ℕ → ℝ

/-- PositionWiseFeedForward.forward: fc2(relu(fc1(x))). -/
def PositionWiseFeedForward.forward (D dFF : ℕ) (p : FFNParams) (x : Tensor3) : Tensor3 :=
  linear3 p.f2W p.f2B D dFF (reluT (linear3 p.f1W p.f1B dFF D x))

structure EncoderLayerParams where
  attn : MHAParams
  ln1W : ℕ → ℝ
  ln1B : ℕ → ℝ
  ln2W : ℕ → ℝ
  ln2B : ℕ → ℝ
  ffn : FFNParams

/-- EncoderLayer.forward, following the statement sequence of the source:
attn_output = attention(x, x, x); x = norm1(x + attn_output);
ffn_output = ffn(x); x = norm2(x + ffn_output). -/
def EncoderLayer.forward (D H dFF : ℕ) (p : EncoderLayerParams) (x0 : Tensor3) : Tensor3 :=
  let attnOutput := MultiHeadAttention.forward D H p.attn x0 x0 x0
  let x1 := layerNorm p.ln1W p.ln1B D (addT x0 attnOutput)
  let ffnOutput := PositionWiseFeedForward.forward D dFF p.ffn x1
  layerNorm p.ln2W p.ln2B D (addT x1 ffnOutput)

/-- The two-stage post-residual-normalisation formula as the spec words it:
x1 = LayerNorm1(x + attention(x, x, x)); output = LayerNorm2(x1 + feedforward(x1)). -/
def specEncoderLayer (D H dFF : ℕ) (p : EncoderLayerParams) (x : Tensor3) : Tensor3 :=
  let x1 := layerNorm p.ln1W p.ln1B D (addT x (MultiHeadAttention.forward D H p.attn x x x))
  layerNorm p.ln2W p.ln2B D (addT x1 (PositionWiseFeedForward.forward D dFF p.ffn x1))

structure TransformerEncoder where
  imgSize : ℕ
  patchSize : ℕ
  dModel : ℕ
  numHeads : ℕ
  dFF : ℕ
  numClasses : ℕ
  patchEmbW : ℕ → ℕ → ℝ
  patchEmbB : ℕ → ℝ
  layers : List EncoderLayerParams
  normW : ℕ → ℝ
  normB : ℕ → ℝ
  fcW : ℕ → ℕ → ℝ
  fcB : ℕ → ℝ

/-- self.num_patches = (img_size // patch_size) ** 2  (floor division). -/
def TransformerEncoder.numPatches (m : TransformerEncoder) : ℕ :=
  (m.imgSize / m.patchSize) ^ 2

/-- self.patch_dim = 3 * patch_size * patch_size. -/
def TransformerEncoder.patchDim (m : TransformerEncoder) : ℕ :=
  3 * m.patchSize * m.patchSize

def peShapeErrMsg : String :=
  "PositionalEncoding init: cos assignment shape mismatch for odd d_model"

def headsAssertMsg : String := "d_model must be divisible by num_heads"

/-- The construction-time failures of TransformerEncoder.__init__, in the
order the source constructs the submodules.  PositionalEncoding is built
first: for odd d_model of at least 3, the assignment pe[:, 1::2] = cos(...)
receives floor(d_model/2) columns from ceil(d_model/2) columns and raises
(for d_model = 1 the right-hand side is a singleton column and broadcasts).
The EncoderLayer stack is built next: its MultiHeadAttention asserts
d_model % num_heads == 0, which only runs when at least one layer exists.
Returns none when construction succeeds. -/
def TransformerEncoder.initError (m : TransformerEncoder) : Option String :=
  if m.dModel % 2 = 1 ∧ 2 ≤ m.dModel then some peShapeErrMsg
  else if ¬ m.dModel % m.numHeads = 0 ∧ m.layers.length ≠ 0 then some headsAssertMsg
  else none

/-- The content produced by patchify: images.unfold(2, ps, ps).unfold(3, ps, ps)
yields the contiguous layout [B, C, H/ps, W/ps, ps, ps]; view(B, -1, 3*ps*ps)
then regroups each run of 3*ps*ps consecutive values of that layout into one
row.  Row n, entry p therefore decode through the strides of
[C, H/ps, W/ps, ps, ps] in that order. -/
def TransformerEncoder.patchifyOk (ps : ℕ) (x : Tensor4) : Tensor3 :=
  ⟨x.d1, x.d2 * (x.d3 / ps) * (x.d4 / ps) * (ps * ps) / (3 * (ps * ps)), 3 * (ps * ps),
    fun b n p =>
      let nH := x.d3 / ps
      let nW := x.d4 / ps
      let f := n * (3 * (ps * ps)) + p
      let cs := nH * (nW * (ps * ps))
      let c := f / cs
      let r1 := f % cs
      let i := r1 / (nW * (ps * ps))
      let r2 := r1 % (nW * (ps * ps))
      let j := r2 / (ps * ps)
      let r3 := r2 % (ps * ps)
      x.data b c (i * ps + r3 / ps) (j * ps + r3 % ps)⟩

def viewErrMsg : String := "view: shape is invalid for input size"

/-- TransformerEncoder.patchify.  The view(B, -1, patch_dim) step requires the
per-image element count C * (H/ps) * (W/ps) * ps * ps to be divisible by
patch_dim = 3 * ps * ps and raises otherwise; no channel count check exists. -/
def TransformerEncoder.patchify (ps : ℕ) (x : Tensor4) : Except String Tensor3 :=
  if x.d2 * (x.d3 / ps) * (x.d4 / ps) * (ps * ps) % (3 * (ps * ps)) = 0 then
    Except.ok (TransformerEncoder.patchifyOk ps x)
  else Except.error viewErrMsg

/-- TransformerEncoder.forward: patchify, patch embedding, positional
encoding (table sized max_len = num_patches), the encoder layer stack in
order, final LayerNorm, mean over the patch axis, classification layer. -/
def TransformerEncoder.forward (m : TransformerEncoder) (x : Tensor4) :
    Except String Tensor2 :=
  match TransformerEncoder.patchify m.patchSize x with
  | Except.error e => Except.error e
  | Except.ok patches =>
    let emb := linear3 m.patchEmbW m.patchEmbB m.dModel (TransformerEncoder.patchDim m) patches
    match PositionalEncoding.forward (TransformerEncoder.numPatches m) (peFun m.dModel) emb with
    | Except.error e => Except.error e
    | Except.ok withPos =>
      let encoded := m.layers.foldl
        (fun acc lp => EncoderLayer.forward m.dModel m.numHeads m.dFF lp acc) withPos
      let normed := layerNorm m.normW m.normB m.dModel encoded
      Except.ok (linear2 m.fcW m.fcB m.numClasses m.dModel (meanDim1 normed))

/-- The forward pipeline exactly as the spec words it, for comparison with
TransformerEncoder.forward. -/
def specForward (m : TransformerEncoder) (x : Tensor4) : Tensor2 :=
  linear2 m.fcW m.fcB m.numClasses m.dModel
    (meanDim1 (layerNorm m.normW m.normB m.dModel
      (m.layers.foldl (fun acc lp => EncoderLayer.forward m.dModel m.numHeads m.dFF lp acc)
        (addPE (peFun m.dModel)
          (linear3 m.patchEmbW m.patchEmbB m.dModel (TransformerEncoder.patchDim m)
            (TransformerEncoder.patchifyOk m.patchSize x))))))

/-- Patch extraction as the spec words it: tile (i, j) in row-major scan
order, each row the flattened channel-by-height-by-width content of exactly
that one non-overlapping ps x ps tile. -/
def specTilePatchify (ps : ℕ) (x : Tensor4) : Tensor3 :=
  ⟨x.d1, (x.d3 / ps) * (x.d4 / ps), x.d2 * (ps * ps), fun b n p =>
    let nW := x.d4 / ps
    let i := n / nW
    let j := n % nW
    let c := p / (ps * ps)
    let r := p % (ps * ps)
    x.data b c (i * ps + r / ps) (j * ps + r % ps)⟩

/-- All-zero parameter bundles standing for one arbitrary initialisation. -/
def zeroMHA : MHAParams :=
  ⟨fun _ _ => 0, fun _ => 0, fun _ _ => 0, fun _ => 0,
   fun _ _ => 0, fun _ => 0, fun _ _ => 0, fun _ => 0⟩

def zeroFFN : FFNParams := ⟨fun _ _ => 0, fun _ => 0, fun _ _ => 0, fun _ => 0⟩

def zeroLayer : EncoderLayerParams :=
  ⟨zeroMHA, fun _ => 0, fun _ => 0, fun _ => 0, fun _ => 0, zeroFFN⟩

/-- A TransformerEncoder with the given hyperparameters and zero weights. -/
def zeroTE (imgSize patchSize dModel numHeads numLayers dFF numClasses : ℕ) :
    TransformerEncoder :=
  ⟨imgSize, patchSize, dModel, numHeads, dFF, numClasses,
   fun _ _ => 0, fun _ => 0, List.replicate numLayers zeroLayer,
   fun _ => 0, fun _ => 0, fun _ _ => 0, fun _ => 0⟩

/-- Whether an Except value carries a successful result. -/
def isOkE {α : Type} (e : Except String α) : Bool :=
  match e with
  | Except.ok _ => true
  | Except.error _ => false

/-- A 1 x 3 x 2 x 2 image batch with pairwise distinct pixel values
v(c, y, x) = 4 c + 2 y + x, and patch_size 1, so each spec patch is the
3-channel content of one pixel. -/
def imgC1 : Tensor4 := ⟨1, 3, 2, 2, fun _ c y x => (c * 4 + y * 2 + x : ℝ)⟩

/-- C1: the source patchify succeeds on a valid 3-channel image, but its
patch vectors are not the channel-by-height-by-width content of single
tiles: at img_size 2, patch_size 1, patch 0 entry 1 holds pixel (c 0, y 0,
x 1) with value 1, while the tile content the claim describes holds pixel
(c 1, y 0, x 0) with value 4.  The missing permute before view makes each
row take 3 consecutive same-channel cells of the unfolded layout. -/
theorem patchify_concrete_divergence :
    TransformerEncoder.patchify 1 imgC1 = Except.ok (TransformerEncoder.patchifyOk 1 imgC1) ∧
    (TransformerEncoder.patchifyOk 1 imgC1).data 0 0 1 = 1 ∧
    (specTilePatchify 1 imgC1).data 0 0 1 = 4 ∧
    (TransformerEncoder.patchifyOk 1 imgC1).data 0 0 1 ≠ (specTilePatchify 1 imgC1).data 0 0 1 := by
  refine ⟨rfl, ?_, ?_, ?_⟩ <;>
    norm_num [TransformerEncoder.patchifyOk, specTilePatchify, imgC1]

def teC2 : TransformerEncoder := zeroTE 224 15 256 8 6 1024 2

/-- C2 counterexample: with img_size 224 and patch_size 15 (d_model 256,
num_heads 8, num_layers 6) construction succeeds; num_patches is computed by
floor division as (224 / 15) squared = 196 and no configuration error is
raised, although 15 does not divide 224. -/
theorem construction_succeeds_224_15 :
    TransformerEncoder.initError teC2 = none ∧
    TransformerEncoder.numPatches teC2 = 196 ∧ ¬ 15 ∣ 224 := by
  refine ⟨by decide, by decide, by decide⟩

/-- C2 amended: construction performs no img_size / patch_size divisibility
check at all: it succeeds exactly when d_model survives the positional
encoding assignment (not odd while at least 2) and, when at least one layer
exists, d_model is divisible by num_heads. -/
theorem initError_ignores_patch_geometry (m : TransformerEncoder) :
    TransformerEncoder.initError m = none ↔
      ¬ (m.dModel % 2 = 1 ∧ 2 ≤ m.dModel) ∧
        (m.dModel % m.numHeads = 0 ∨ m.layers.length = 0) := by
  unfold TransformerEncoder.initError
  by_cases h1 : m.dModel % 2 = 1 ∧ 2 ≤ m.dModel
  · simp [h1]
  · by_cases h2 : ¬ m.dModel % m.numHeads = 0 ∧ m.layers.length ≠ 0
    · simp [h1, h2]
    · simp [h1, h2]
      tauto

def teC10 : TransformerEncoder := zeroTE 224 16 255 5 6 1024 2

/-- C10: the configuration img_size 224, patch_size 16, d_model 255,
num_heads 5 satisfies every validity constraint the spec states (5 divides
255 and 16 divides 224), yet construction fails inside PositionalEncoding,
and in general every d_model that is odd and at least 2 makes construction
fail there: an even-d_model precondition the spec never states. -/
theorem odd_dmodel_construction_fails :
    (255 % 5 = 0 ∧ 224 % 16 = 0 ∧
      TransformerEncoder.initError teC10 = some peShapeErrMsg) ∧
    ∀ m : TransformerEncoder, m.dModel % 2 = 1 → 2 ≤ m.dModel →
      TransformerEncoder.initError m = some peShapeErrMsg := by
  refine ⟨⟨by decide, by decide, by decide⟩, fun m h1 h2 => ?_⟩
  unfold TransformerEncoder.initError
  rw [if_pos ⟨h1, h2⟩]

theorem odd_dmodel_construction_fails_witness :
    TransformerEncoder.initError (zeroTE 8 2 3 1 1 4 2) = some peShapeErrMsg :=
  odd_dmodel_construction_fails.2 (zeroTE 8 2 3 1 1 4 2) (by decide) (by decide)

def teC8 : TransformerEncoder := zeroTE 3 1 2 1 1 4 1

/-- A 1 x 2 x 3 x 3 image batch: wrong channel count 2, correct spatial
size 3 for teC8. -/
def imgC8 : Tensor4 := ⟨1, 2, 3, 3, fun _ _ _ _ => 0⟩

/-- C8 counterexample: TransformerEncoder.forward on an input with channel
count 2 (spatial size equal to img_size) succeeds end to end at img_size 3,
patch_size 1: patchify silently reshapes the 18 values into 6 rows of
patch_dim 3, the positional slice broadcasts because 6 is at most
num_patches 9, and logits are returned with no shape error. -/
theorem forward_succeeds_two_channels :
    isOkE (TransformerEncoder.forward teC8 imgC8) = true ∧
    imgC8.d2 = 2 ∧ imgC8.d3 = teC8.imgSize ∧ imgC8.d4 = teC8.imgSize :=
  ⟨rfl, rfl, rfl, rfl⟩

/-- C8 amended: patchify performs no channel count check. The view step
succeeds exactly when 3 divides C * (H / ps) * (W / ps), in which case the
input is silently regrouped into that quotient many rows of length
3 ps * ps; otherwise the call fails with a view size error. -/
theorem patchify_no_channel_check (ps : ℕ) (x : Tensor4) (hps : 0 < ps) :
    (3 ∣ x.d2 * (x.d3 / ps) * (x.d4 / ps) →
      TransformerEncoder.patchify ps x = Except.ok (TransformerEncoder.patchifyOk ps x) ∧
      (TransformerEncoder.patchifyOk ps x).d2 = x.d2 * (x.d3 / ps) * (x.d4 / ps) / 3) ∧
    (¬ 3 ∣ x.d2 * (x.d3 / ps) * (x.d4 / ps) →
      TransformerEncoder.patchify ps x = Except.error viewErrMsg) := by
  have hpp : 0 < ps * ps := Nat.mul_pos hps hps
  have hmod : x.d2 * (x.d3 / ps) * (x.d4 / ps) * (ps * ps) % (3 * (ps * ps)) =
      x.d2 * (x.d3 / ps) * (x.d4 / ps) % 3 * (ps * ps) :=
    Nat.mul_mod_mul_right _ _ _
  constructor
  · intro hdvd
    have h0 : x.d2 * (x.d3 / ps) * (x.d4 / ps) % 3 = 0 := by
      obtain ⟨k, hk⟩ := hdvd
      rw [hk]
      exact Nat.mul_mod_right 3 k
    have hguard : x.d2 * (x.d3 / ps) * (x.d4 / ps) * (ps * ps) % (3 * (ps * ps)) = 0 := by
      rw [hmod, h0, zero_mul]
    refine ⟨?_, ?_⟩
    · unfold TransformerEncoder.patchify
      rw [if_pos hguard]
    · show x.d2 * (x.d3 / ps) * (x.d4 / ps) * (ps * ps) / (3 * (ps * ps)) =
        x.d2 * (x.d3 / ps) * (x.d4 / ps) / 3
      exact Nat.mul_div_mul_right _ _ hpp
  · intro hndvd
    have h0 : x.d2 * (x.d3 / ps) * (x.d4 / ps) % 3 ≠ 0 := fun h =>
      hndvd (Nat.dvd_of_mod_eq_zero h)
    have hguard : x.d2 * (x.d3 / ps) * (x.d4 / ps) * (ps * ps) % (3 * (ps * ps)) ≠ 0 := by
      rw [hmod]
      exact Nat.mul_ne_zero h0 hpp.ne'
    unfold TransformerEncoder.patchify
    rw [if_neg hguard]

theorem patchify_no_channel_check_witness :
    TransformerEncoder.patchify 1 imgC8 = Except.ok (TransformerEncoder.patchifyOk 1 imgC8) ∧
    (TransformerEncoder.patchifyOk 1 imgC8).d2 = 6 :=
  ⟨((patchify_no_channel_check 1 imgC8 (by decide)).1 (by decide)).1,
   ((patchify_no_channel_check 1 imgC8 (by decide)).1 (by decide)).2⟩

def t9 : Tensor3 := ⟨1, 2, 1, fun _ _ _ => 0⟩

/-- C9 counterexample: with max_len 1 and an input of sequence length 2,
PositionalEncoding.forward silently succeeds, broadcasting the single
positional row to every position instead of raising a dimension mismatch. -/
theorem posenc_broadcast_maxlen_one :
    isOkE (PositionalEncoding.forward 1 (peFun 2) t9) = true ∧ 1 < t9.d2 :=
  ⟨rfl, by decide⟩

/-- C9 amended: when L exceeds max_len the forward call raises a broadcast
size-mismatch error, except when max_len is exactly 1, in which case the
singleton positional row broadcasts over all L positions and the call
silently succeeds. -/
theorem posenc_overflow_behavior (maxLen : ℕ) (pe : ℕ → ℕ → ℝ) (x : Tensor3)
    (h : maxLen < x.d2) :
    (maxLen ≠ 1 → PositionalEncoding.forward maxLen pe x = Except.error broadcastErrMsg) ∧
    (maxLen = 1 → PositionalEncoding.forward maxLen pe x = Except.ok (broadcastRow0 pe x)) := by
  have hmin : min x.d2 maxLen = maxLen := min_eq_right h.le
  have hne : ¬ min x.d2 maxLen = x.d2 := by
    rw [hmin]
    exact Nat.ne_of_lt h
  constructor
  · intro h1
    unfold PositionalEncoding.forward
    rw [if_neg hne, if_neg (by rw [hmin]; exact h1)]
  · intro h1
    unfold PositionalEncoding.forward
    rw [if_neg hne, if_pos (by rw [hmin]; exact h1)]

def t9b : Tensor3 := ⟨1, 3, 1, fun _ _ _ => 0⟩

theorem posenc_overflow_behavior_witness :
    PositionalEncoding.forward 2 (peFun 2) t9b = Except.error broadcastErrMsg :=
  (posenc_overflow_behavior 2 (peFun 2) t9b (by decide)).1 (by decide)

/-- C4: the post-softmax attention weights are row-stochastic: for every
batch element, head and query position of a nonempty score row, the weights
over the last axis sum to exactly 1, every weight is nonnegative, and every
weight within the row extent is at most 1. -/
theorem attention_weights_row_stochastic (dk : ℕ) (Q K : Tensor4) (b h i : ℕ)
    (hL : 0 < K.d3) :
    (∑ j ∈ Finset.range K.d3, (softmaxLast (attnScores dk Q K)).data b h i j) = 1 ∧
    (∀ j, 0 ≤ (softmaxLast (attnScores dk Q K)).data b h i j) ∧
    (∀ j, j < K.d3 → (softmaxLast (attnScores dk Q K)).data b h i j ≤ 1) := by
  have hS : 0 < ∑ u ∈ Finset.range K.d3, Real.exp ((attnScores dk Q K).data b h i u) :=
    Finset.sum_pos (fun u _ => Real.exp_pos _) (Finset.nonempty_range_iff.mpr hL.ne')
  refine ⟨?_, fun j => ?_, fun j hj => ?_⟩
  · show (∑ j ∈ Finset.range K.d3,
        Real.exp ((attnScores dk Q K).data b h i j) /
          ∑ u ∈ Finset.range K.d3, Real.exp ((attnScores dk Q K).data b h i u)) = 1
    rw [← Finset.sum_div, div_self hS.ne']
  · exact div_nonneg (Real.exp_pos _).le hS.le
  · show Real.exp ((attnScores dk Q K).data b h i j) /
        (∑ u ∈ Finset.range K.d3, Real.exp ((attnScores dk Q K).data b h i u)) ≤ 1
    rw [div_le_one hS]
    exact Finset.single_le_sum (fun u _ => (Real.exp_pos _).le) (Finset.mem_range.mpr hj)

def qC4 : Tensor4 := ⟨1, 1, 1, 1, fun _ _ _ _ => 0⟩

theorem attention_weights_row_stochastic_witness :
    (∑ j ∈ Finset.range 1, (softmaxLast (attnScores 1 qC4 qC4)).data 0 0 0 j) = 1 :=
  (attention_weights_row_stochastic 1 qC4 qC4 0 0 0 (by decide)).1

/-- C5: EncoderLayer.forward computes exactly the two post-residual
normalisation stages x1 = LayerNorm1(x + attention(x, x, x)) and
output = LayerNorm2(x1 + feedforward(x1)), and its output dimensions equal
the input dimensions. -/
theorem encoder_layer_post_norm_structure (D H dFF : ℕ) (p : EncoderLayerParams)
    (x : Tensor3) :
    EncoderLayer.forward D H dFF p x = specEncoderLayer D H dFF p x ∧
    (EncoderLayer.forward D H dFF p x).d1 = x.d1 ∧
    (EncoderLayer.forward D H dFF p x).d2 = x.d2 ∧
    (EncoderLayer.forward D H dFF p x).d3 = x.d3 :=
  ⟨rfl, rfl, rfl, rfl⟩

/-- C6: the positional table satisfies pe(pos, 2 i) = sin(pos / 10000 ^
(2 i / d_model)) and pe(pos, 2 i + 1) = cos(pos / 10000 ^ (2 i / d_model))
on its whole extent, and for any input with at most max_len positions the
forward call returns exactly x plus the first L table rows, broadcast over
the batch. -/
theorem positional_encoding_table_and_add (d maxLen : ℕ) :
    (∀ pos i : ℕ, pos < maxLen → i < d / 2 →
      peFun d pos (2 * i) =
        Real.sin ((pos : ℝ) / (10000 : ℝ) ^ (((2 * i : ℕ) : ℝ) / (d : ℝ))) ∧
      peFun d pos (2 * i + 1) =
        Real.cos ((pos : ℝ) / (10000 : ℝ) ^ (((2 * i : ℕ) : ℝ) / (d : ℝ)))) ∧
    (∀ x : Tensor3, x.d2 ≤ maxLen →
      PositionalEncoding.forward maxLen (peFun d) x = Except.ok (addPE (peFun d) x)) := by
  have key : ∀ pos i : ℕ,
      (pos : ℝ) * divTerm d i = (pos : ℝ) / (10000 : ℝ) ^ (((2 * i : ℕ) : ℝ) / (d : ℝ)) := by
    intro pos i
    have e1 : divTerm d i = (Real.exp (Real.log 10000 * (((2 * i : ℕ) : ℝ) / (d : ℝ))))⁻¹ := by
      rw [divTerm, ← Real.exp_neg]
      congr 1
      push_cast
      ring
    rw [Real.rpow_def_of_pos (by norm_num : (0 : ℝ) < 10000), e1]
    ring
  refine ⟨fun pos i _ _ => ⟨?_, ?_⟩, fun x hx => ?_⟩
  · have h1 : 2 * i % 2 = 0 := by omega
    have h2 : 2 * i / 2 = i := by omega
    rw [peFun, if_pos h1, h2, key pos i]
  · have h1 : ¬ (2 * i + 1) % 2 = 0 := by omega
    have h2 : (2 * i + 1) / 2 = i := by omega
    rw [peFun, if_neg h1, h2, key pos i]
  · unfold PositionalEncoding.forward
    rw [if_pos (min_eq_left hx)]

def tC6 : Tensor3 := ⟨1, 1, 1, fun _ _ _ => 0⟩

theorem positional_encoding_table_and_add_witness :
    peFun 2 0 (2 * 0) =
      Real.sin (((0 : ℕ) : ℝ) / (10000 : ℝ) ^ (((2 * 0 : ℕ) : ℝ) / ((2 : ℕ) : ℝ))) ∧
    PositionalEncoding.forward 1 (peFun 2) tC6 = Except.ok (addPE (peFun 2) tC6) :=
  ⟨((positional_encoding_table_and_add 2 1).1 0 0 (by decide) (by decide)).1,
   (positional_encoding_table_and_add 2 1).2 tC6 (by decide)⟩

lemma merge_split_d2 (H dk : ℕ) (x : Tensor3) (hx : x.d3 = H * dk) (hK : 0 < H * dk) :
    (mergeHeads H dk (splitHeads H dk x)).d2 = x.d2 := by
  show H * (x.d2 * x.d3 / (H * dk)) * dk / (H * dk) = x.d2
  rw [hx, Nat.mul_div_cancel _ hK]
  have e : H * x.d2 * dk = (H * dk) * x.d2 := by ring
  rw [e, Nat.mul_div_cancel_left _ hK]

lemma merge_split_data (H dk : ℕ) (x : Tensor3) (hx : x.d3 = H * dk) (b l dd : ℕ)
    (hdd : dd < H * dk) :
    (mergeHeads H dk (splitHeads H dk x)).data b l dd = x.data b l dd := by
  have hK : 0 < H * dk := lt_of_le_of_lt (Nat.zero_le dd) hdd
  have hmod : (l * (H * dk) + dd) % (H * dk) = dd := by
    rw [mul_comm l (H * dk), Nat.mul_add_mod]
    exact Nat.mod_eq_of_lt hdd
  have hdiv : (l * (H * dk) + dd) / (H * dk) = l := by
    rw [mul_comm l (H * dk), Nat.mul_add_div hK, Nat.div_eq_of_lt hdd, Nat.add_zero]
  show x.data b
      ((((l * (H * dk) + dd) / (H * dk)) * (H * dk) +
          ((l * (H * dk) + dd) % (H * dk)) / dk * dk +
          ((l * (H * dk) + dd) % (H * dk)) % dk) / x.d3)
      ((((l * (H * dk) + dd) / (H * dk)) * (H * dk) +
          ((l * (H * dk) + dd) % (H * dk)) / dk * dk +
          ((l * (H * dk) + dd) % (H * dk)) % dk) % x.d3) = x.data b l dd
  rw [hmod, hdiv, Nat.add_assoc, Nat.div_add_mod' dd dk, hx, hmod, hdiv]

/-- C7: for a valid configuration (num_heads divides d_model) and a query of
feature width d_model, MultiHeadAttention.forward returns a tensor whose
dimensions equal those of the query input, and the head concatenation
(transpose plus view) exactly inverts the head-splitting reshape of the
input path on every tensor of feature width d_model. -/
theorem mha_shape_and_head_inversion (D H : ℕ) (p : MHAParams) (Q K V : Tensor3)
    (hD : 0 < D) (hHD : H ∣ D) (hQ : Q.d3 = D) :
    ((MultiHeadAttention.forward D H p Q K V).d1 = Q.d1 ∧
     (MultiHeadAttention.forward D H p Q K V).d2 = Q.d2 ∧
     (MultiHeadAttention.forward D H p Q K V).d3 = Q.d3) ∧
    (∀ x : Tensor3, x.d3 = D →
      (mergeHeads H (D / H) (splitHeads H (D / H) x)).d1 = x.d1 ∧
      (mergeHeads H (D / H) (splitHeads H (D / H) x)).d2 = x.d2 ∧
      (mergeHeads H (D / H) (splitHeads H (D / H) x)).d3 = x.d3 ∧
      ∀ b l dd : ℕ, dd < D →
        (mergeHeads H (D / H) (splitHeads H (D / H) x)).data b l dd = x.data b l dd) := by
  have hK : H * (D / H) = D := Nat.mul_div_cancel' hHD
  have hKpos : 0 < H * (D / H) := hD.trans_eq hK.symm
  constructor
  · refine ⟨rfl, ?_, hQ.symm⟩
    show H * (Q.d2 * D / (H * (D / H))) * (D / H) / (H * (D / H)) = Q.d2
    rw [hK, Nat.mul_div_cancel _ hD]
    have e : H * Q.d2 * (D / H) = Q.d2 * (H * (D / H)) := by ring
    rw [e, hK, Nat.mul_div_cancel _ hD]
  · intro x hx
    exact ⟨rfl, merge_split_d2 H (D / H) x (hx.trans hK.symm) hKpos,
      (show (H * (D / H) : ℕ) = x.d3 from hK.trans hx.symm),
      fun b l dd hdd => merge_split_data H (D / H) x (hx.trans hK.symm) b l dd
        (hdd.trans_eq hK.symm)⟩

def tQ : Tensor3 := ⟨1, 1, 2, fun _ _ _ => 0⟩

theorem mha_shape_and_head_inversion_witness :
    (MultiHeadAttention.forward 2 1 zeroMHA tQ tQ tQ).d2 = tQ.d2 ∧
    (mergeHeads 1 (2 / 1) (splitHeads 1 (2 / 1) tQ)).data 0 0 0 = tQ.data 0 0 0 :=
  ⟨(mha_shape_and_head_inversion 2 1 zeroMHA tQ tQ tQ (by decide) (by decide) rfl).1.2.1,
   ((mha_shape_and_head_inversion 2 1 zeroMHA tQ tQ tQ (by decide) (by decide) rfl).2
      tQ rfl).2.2.2 0 0 0 (by decide)⟩

lemma encoder_fold_d1 (D H dFF : ℕ) (l : List EncoderLayerParams) (t : Tensor3) :
    (List.foldl (fun acc lp => EncoderLayer.forward D H dFF lp acc) t l).d1 = t.d1 := by
  induction l generalizing t with
  | nil => rfl
  | cons hd tl ih => exact ih (EncoderLayer.forward D H dFF hd t)

/-- C3: on a valid configuration and a 3-channel square input of spatial
size img_size, TransformerEncoder.forward computes exactly the spec
pipeline: patchify, linear patch embedding, addition of the positional
table (whose extent num_patches equals the patch count produced), the
encoder layers in order, final layer normalisation, mean pooling over the
patch axis, and the classification projection, producing logits of
dimensions batch by num_classes. -/
theorem forward_matches_spec_pipeline (m : TransformerEncoder) (x : Tensor4)
    (hc : x.d2 = 3) (hh : x.d3 = m.imgSize) (hw : x.d4 = m.imgSize)
    (hps : 0 < m.patchSize) (_hdvd : m.patchSize ∣ m.imgSize)
    (_hH : m.numHeads ∣ m.dModel) (_hD : 0 < m.dModel) :
    TransformerEncoder.forward m x = Except.ok (specForward m x) ∧
    (TransformerEncoder.patchifyOk m.patchSize x).d2 = TransformerEncoder.numPatches m ∧
    (specForward m x).d1 = x.d1 ∧
    (specForward m x).d2 = m.numClasses := by
  have hpp : 0 < 3 * (m.patchSize * m.patchSize) := by positivity
  have hd2 : (TransformerEncoder.patchifyOk m.patchSize x).d2 =
      TransformerEncoder.numPatches m := by
    show x.d2 * (x.d3 / m.patchSize) * (x.d4 / m.patchSize) * (m.patchSize * m.patchSize) /
        (3 * (m.patchSize * m.patchSize)) = (m.imgSize / m.patchSize) ^ 2
    rw [hc, hh, hw]
    have e : 3 * (m.imgSize / m.patchSize) * (m.imgSize / m.patchSize) *
        (m.patchSize * m.patchSize) =
        (3 * (m.patchSize * m.patchSize)) *
          ((m.imgSize / m.patchSize) * (m.imgSize / m.patchSize)) := by ring
    rw [e, Nat.mul_div_cancel_left _ hpp, sq]
  have hguard : x.d2 * (x.d3 / m.patchSize) * (x.d4 / m.patchSize) *
      (m.patchSize * m.patchSize) % (3 * (m.patchSize * m.patchSize)) = 0 := by
    rw [hc]
    have e : 3 * (x.d3 / m.patchSize) * (x.d4 / m.patchSize) * (m.patchSize * m.patchSize) =
        (3 * (m.patchSize * m.patchSize)) * ((x.d3 / m.patchSize) * (x.d4 / m.patchSize)) := by
      ring
    rw [e]
    exact Nat.mul_mod_right _ _
  have hp : TransformerEncoder.patchify m.patchSize x =
      Except.ok (TransformerEncoder.patchifyOk m.patchSize x) := by
    unfold TransformerEncoder.patchify
    rw [if_pos hguard]
  have hpe : PositionalEncoding.forward (TransformerEncoder.numPatches m) (peFun m.dModel)
      (linear3 m.patchEmbW m.patchEmbB m.dModel (TransformerEncoder.patchDim m)
        (TransformerEncoder.patchifyOk m.patchSize x)) =
      Except.ok (addPE (peFun m.dModel)
        (linear3 m.patchEmbW m.patchEmbB m.dModel (TransformerEncoder.patchDim m)
          (TransformerEncoder.patchifyOk m.patchSize x))) := by
    have hmin : min (linear3 m.patchEmbW m.patchEmbB m.dModel (TransformerEncoder.patchDim m)
        (TransformerEncoder.patchifyOk m.patchSize x)).d2 (TransformerEncoder.numPatches m) =
        (linear3 m.patchEmbW m.patchEmbB m.dModel (TransformerEncoder.patchDim m)
          (TransformerEncoder.patchifyOk m.patchSize x)).d2 :=
      min_eq_left (le_of_eq hd2)
    simp only [PositionalEncoding.forward]
    rw [if_pos hmin]
  refine ⟨?_, hd2, ?_, rfl⟩
  · simp only [TransformerEncoder.forward, hp, hpe, specForward]
  · exact encoder_fold_d1 m.dModel m.numHeads m.dFF m.layers _

def teC3 : TransformerEncoder := zeroTE 2 1 2 1 1 4 2

def xC3 : Tensor4 := ⟨1, 3, 2, 2, fun _ _ _ _ => 0⟩

theorem forward_matches_spec_pipeline_witness :
    TransformerEncoder.forward teC3 xC3 = Except.ok (specForward teC3 xC3) ∧
    (specForward teC3 xC3).d2 = teC3.numClasses :=
  ⟨(forward_matches_spec_pipeline teC3 xC3 rfl rfl rfl (by decide) (by decide)
      (by decide) (by decide)).1,
   (forward_matches_spec_pipeline teC3 xC3 rfl rfl rfl (by decide) (by decide)
      (by decide) (by decide)).2.2.2⟩

end
